import Mathlib

/-!
# Verification of `template/runner/base/base_inference.py` (Gale)

Shallow embedding of the `BaseInference` class.  Conventions:

* Python floats are modelled as `ℚ`; the real exponential used by
  `torch.nn.Softmax` is an abstract parameter `Env.exp : ℚ → ℚ` (none of the
  theorems need any property of it, and witnesses instantiate it concretely).
* PIL images and torch tensors (before the batch dimension is added) are both
  values of one abstract type `D` (torchvision transforms are duck-typed maps
  on such values); a mini-batch is a `List D`, so `unsqueeze(0)` is `[·]`.
* External library calls (`pil_loader`, `base64.decodebytes` + `Image.open`,
  `convert_to_rgb`, `ToTensor`, `move_to_device`, `Image.new` + PNG encoding,
  `torch.load`, `BaseSetup.setup_model`) are abstract fields of an
  environment `Env`; the checkpoint dictionary is a `Checkpoint` record.
* Python exceptions are an explicit error type `PyError`; attribute mutation
  on `self` is explicit state passing on `BaseInference`; `single_run`
  additionally records a trace of pipeline events so that ordering and
  "no reload happens" statements are expressible.
-/

/-- Python exceptions that the code under verification can raise. -/
inductive PyError : Type where
  | assertionError : PyError
  | fileNotFoundError : String → PyError
  | unboundLocalError : String → PyError
  | attributeError : PyError
  | runtimeError : PyError
  | indexError : PyError
deriving DecidableEq

/-- The value stored under the `'result'` key of the returned payload:
either a classification `[class_name, activation]` pair or the fixed
pre-load message string. -/
inductive PayloadValue : Type where
  | classification : String → ℚ → PayloadValue
  | message : String → PayloadValue
deriving DecidableEq

/-- The payload dictionary `{'result': ...}` returned by `single_run`. -/
structure Payload : Type where
  result : PayloadValue
deriving DecidableEq

/-- Torchvision-style transforms as data: `toTensor` is `T.ToTensor()`,
`compose ts` is `T.Compose(ts)`, and `stored k` stands for an arbitrary
transform object found in a checkpoint, identified by a key. -/
inductive TransformE : Type where
  | toTensor : TransformE
  | compose : List TransformE → TransformE
  | stored : Nat → TransformE

/-- The dictionary produced by `torch.load` on the checkpoint file.
`test_transform` models the optional `'test_transform'` entry and `classes`
the `'classes'` entry, both read by `single_run`. -/
structure Checkpoint (W : Type) : Type where
  test_transform : Option TransformE
  classes : List String
  /-- Modelled from the spec: the spec's data-model sentence says the
  checkpoint file also contains model weights; they are consumed by
  `BaseSetup.setup_model`, whose code is not part of this repository slice,
  so the weights are an abstract value. -/
  weights : W

/-- Pipeline events recorded by the embedding, used to state ordering and
laziness properties of `single_run`. -/
inductive Event : Type where
  | setup_model : Event
  | load_checkpoint : Event
  | load_image : String → Event
  | decode_image : String → Event
  | transform_apply : Event
  | move_to_device : Event
  | forward : Event
  | postprocess_ev : Event
deriving DecidableEq

/-- The external environment: every call that leaves the file
`base_inference.py` (PIL, torchvision, torch, `util.misc`, `BaseRoutine`,
`BaseSetup`) is an abstract function here.  `D` is the type of
images/tensors, `W` the type of model weights. -/
structure Env (D W : Type) : Type where
  /-- `self.setup.setup_model(**kwargs)` followed by `.eval()`: the loaded
  model, a function from a mini-batch to the output tensor of shape `(N, C)`. -/
  setup_model : List D → List (List ℚ)
  /-- `torch.load(load_model, map_location='cpu')`. -/
  checkpoint : Checkpoint W
  /-- The real exponential used by `torch.nn.Softmax`. -/
  exp : ℚ → ℚ
  /-- `os.path.exists`. -/
  file_exists : String → Bool
  /-- `util.misc.pil_loader`. -/
  pil_loader : String → D
  /-- `Image.open(io.BytesIO(base64.decodebytes(s.encode("utf-8"))))`. -/
  decode_base64 : String → D
  /-- `util.misc.convert_to_rgb`. -/
  convert_to_rgb : D → D
  /-- Application of `T.ToTensor()`. -/
  toTensor : D → D
  /-- Application of a checkpoint-stored transform object with key `k`. -/
  storedApply : Nat → D → D
  /-- `BaseRoutine.move_to_device(input=img, **kwargs)` (first component). -/
  move_to_device : D → D
  /-- `Image.new('RGB', (w, h))`: a fresh RGB image of the given size. -/
  image_new_RGB : Nat × Nat → D
  /-- Saving an image as PNG into a buffer and base64-encoding the bytes:
  `base64.b64encode(buffered.getvalue()).decode('utf-8')`. -/
  b64encode_png : D → String

/-- The mutable attributes of a `BaseInference` object.  `none` models a
missing attribute (`hasattr` false); the `setup` strategy object is absorbed
into `Env.setup_model`. -/
structure BaseInference (D : Type) : Type where
  model : Option (List D → List (List ℚ))
  transform : Option TransformE
  classes : Option (List String)

/-- `BaseInference.__init__`: no `model`, `transform` or `classes`
attribute exists yet. -/
def BaseInference.init (D : Type) : BaseInference D :=
  { model := none, transform := none, classes := none }

mutual
/-- Semantics of a transform object applied to an image/tensor value. -/
def applyT {D W : Type} (env : Env D W) : TransformE → D → D
  | TransformE.toTensor, d => env.toTensor d
  | TransformE.stored k, d => env.storedApply k d
  | TransformE.compose ts, d => applyList env ts d

/-- `T.Compose` applies its member transforms in sequence. -/
def applyList {D W : Type} (env : Env D W) : List TransformE → D → D
  | [], d => d
  | t :: ts, d => applyList env ts (applyT env t d)
end

/-- The transform `single_run` installs from a freshly loaded checkpoint:
`checkpoint['test_transform']` when present, else the fallback
`T.Compose([T.ToTensor()])`. -/
def checkpointTransform {W : Type} (c : Checkpoint W) : TransformE :=
  match c.test_transform with
  | some t => t
  | none => TransformE.compose [TransformE.toTensor]

/-- The attributes set by the lazy-load block of `single_run`:
`self.model` from `setup_model`, `self.transform` from the checkpoint (with
the `ToTensor` fallback) and `self.classes` from `checkpoint['classes']`. -/
def loadedState {D W : Type} (env : Env D W) : BaseInference D :=
  { model := some env.setup_model
    transform := some (checkpointTransform env.checkpoint)
    classes := some env.checkpoint.classes }

/-- The guard of the lazy-load block:
`not hasattr(self, 'model') or not hasattr(self, 'transform')`. -/
def needLoad {D : Type} (st : BaseInference D) : Bool :=
  st.model.isNone || st.transform.isNone

/-- The state of `self` right after the lazy-load block of `single_run`. -/
def afterLoad {D W : Type} (st : BaseInference D) (env : Env D W) :
    BaseInference D :=
  if needLoad st then loadedState env else st

/-- The events emitted by the lazy-load block of `single_run`. -/
def loadEvents {D : Type} (st : BaseInference D) : List Event :=
  if needLoad st then [Event.setup_model, Event.load_checkpoint] else []

/-- `BaseInference._load_image`: raise `FileNotFoundError` when the path
does not exist, else load the image with `pil_loader`. -/
def _load_image {D W : Type} (env : Env D W) (input_folder : String) :
    Except PyError D :=
  if !env.file_exists input_folder then
    Except.error (PyError.fileNotFoundError
      ("Could not find file " ++ input_folder))
  else
    Except.ok (env.pil_loader input_folder)

/-- The tail of `BaseInference.preprocess` shared by both image sources:
`img = self.transform(img)`, `move_to_device`, `img.unsqueeze(0)`.
Accessing a missing `self.transform` attribute raises `AttributeError`. -/
def finishPre {D W : Type} (st : BaseInference D) (env : Env D W) (im : D)
    (evs : List Event) : Except PyError (List D) × List Event :=
  match st.transform with
  | none => (Except.error PyError.attributeError, evs)
  | some tf =>
    let t := env.move_to_device (applyT env tf im)
    (Except.ok [t], evs ++ [Event.transform_apply, Event.move_to_device])

/-- `BaseInference.preprocess`.  The two `if` blocks of the source become a
four-way case split: both sources given fails the first block's
`assert input_image is None`; a path loads via `_load_image`; a base64
string is decoded and converted to RGB; with neither source the local
variable `img` is never assigned, so evaluating `self.transform(img)`
raises `UnboundLocalError` (after `self.transform` itself resolved). -/
def preprocess {D W : Type} (st : BaseInference D) (env : Env D W)
    (input_folder input_image : Option String) :
    Except PyError (List D) × List Event :=
  match input_folder, input_image with
  | some _, some _ => (Except.error PyError.assertionError, [])
  | some path, none =>
    match _load_image env path with
    | Except.error e => (Except.error e, [])
    | Except.ok im => finishPre st env im [Event.load_image path]
  | none, some s =>
    let im := env.convert_to_rgb (env.decode_base64 s)
    finishPre st env im [Event.decode_image s]
  | none, none =>
    match st.transform with
    | none => (Except.error PyError.attributeError, [])
    | some _ => (Except.error (PyError.unboundLocalError "img"), [])

/-- `torch.max(row)` along a row: the maximal value together with the index
of its first occurrence; `none` on an empty row. -/
def rowMaxIdx : List ℚ → Option (ℚ × Nat)
  | [] => none
  | x :: xs =>
    match rowMaxIdx xs with
    | none => some (x, 0)
    | some (v, i) => if v > x then some (v, i + 1) else some (x, 0)

/-- One row of `torch.nn.Softmax(dim=1)`. -/
def softmaxRow (e : ℚ → ℚ) (l : List ℚ) : List ℚ :=
  l.map (fun x => e x / (l.map e).sum)

/-- `torch.max(output, 1)`: per-row maxima with their (first) indices;
fails when a row is empty. -/
def torchMaxDim1 : List (List ℚ) → Option (List (ℚ × Nat))
  | [] => some []
  | r :: rs =>
    match rowMaxIdx r, torchMaxDim1 rs with
    | some p, some ps => some (p :: ps)
    | _, _ => none

/-- `BaseInference.postprocess`: softmax along dim 1, `torch.max` along
dim 1, then `{'result': [self.classes[index], value]}`.  `value.item()`
and list indexing by the index tensor require the batch to hold exactly
one row; an out-of-range class index raises `IndexError`.  (The source
renders the activation as a 2-decimal string; the embedding keeps the
rational value itself.) -/
def postprocess {D W : Type} (st : BaseInference D) (env : Env D W)
    (output : List (List ℚ)) : Except PyError Payload :=
  match st.classes with
  | none => Except.error PyError.attributeError
  | some classes =>
    let sm := output.map (softmaxRow env.exp)
    match torchMaxDim1 sm with
    | none => Except.error PyError.runtimeError
    | some [(v, i)] =>
      match classes[i]? with
      | some name => Except.ok ⟨PayloadValue.classification name v⟩
      | none => Except.error PyError.indexError
    | some _ => Except.error PyError.runtimeError

/-- The result of one `single_run` call: the returned payload or raised
exception, the state of `self` afterwards (attribute mutations survive a
later exception), and the trace of pipeline events. -/
structure RunResult (D : Type) : Type where
  out : Except PyError Payload
  state : BaseInference D
  trace : List Event

/-- `BaseInference.single_run`: lazy one-time load of model/transform/
classes, the pre-load warm-up substitution and asserts, `preprocess`, the
forward pass under `torch.no_grad()`, and either the fixed pre-load payload
or `postprocess`. -/
def single_run {D W : Type} (st0 : BaseInference D) (env : Env D W)
    (pre_load : Bool) (input_folder input_image : Option String) :
    RunResult D :=
  if pre_load && input_image.isSome then
    ⟨Except.error PyError.assertionError, afterLoad st0 env, loadEvents st0⟩
  else if pre_load && input_folder.isSome then
    ⟨Except.error PyError.assertionError, afterLoad st0 env, loadEvents st0⟩
  else
    match preprocess (afterLoad st0 env) env input_folder
        (if pre_load then some (env.b64encode_png (env.image_new_RGB (128, 128)))
         else input_image) with
    | (Except.error e, evs) =>
      ⟨Except.error e, afterLoad st0 env, loadEvents st0 ++ evs⟩
    | (Except.ok img, evs) =>
      match (afterLoad st0 env).model with
      | none =>
        ⟨Except.error PyError.attributeError, afterLoad st0 env,
          loadEvents st0 ++ evs⟩
      | some m =>
        if pre_load then
          ⟨Except.ok ⟨PayloadValue.message "successfully loaded the model"⟩,
            afterLoad st0 env, loadEvents st0 ++ evs ++ [Event.forward]⟩
        else
          ⟨postprocess (afterLoad st0 env) env (m img), afterLoad st0 env,
            loadEvents st0 ++ evs ++ [Event.forward, Event.postprocess_ev]⟩

/-- A concrete environment used to evaluate the definitions on closed
inputs: images/tensors are `Nat`, weights are `Unit`, the checkpoint has no
`'test_transform'` entry and three classes. -/
def envW : Env Nat Unit :=
  { setup_model := fun _ => [[1, 3, 2]]
    checkpoint := { test_transform := none, classes := ["cat", "dog", "bird"],
                    weights := () }
    exp := fun q => q + 10
    file_exists := fun p => p == "img.png"
    pil_loader := fun _ => 1
    decode_base64 := fun _ => 2
    convert_to_rgb := fun d => d
    toTensor := fun d => d + 1
    storedApply := fun k d => d + k
    move_to_device := fun d => d
    image_new_RGB := fun _ => 0
    b64encode_png := fun _ => "FAKEPNG" }

/-- The state of a `BaseInference` object after its first `single_run`
under `envW`. -/
def stW : BaseInference Nat := loadedState envW

/-! ## Helper lemmas -/

theorem rowMaxIdx_cons_ne_none (a : ℚ) (as : List ℚ) :
    rowMaxIdx (a :: as) ≠ none := by
  rw [rowMaxIdx]
  split
  · simp
  · split <;> simp

theorem rowMaxIdx_le {l : List ℚ} {v : ℚ} {i : Nat}
    (h : rowMaxIdx l = some (v, i)) : ∀ x ∈ l, x ≤ v := by
  induction l generalizing v i with
  | nil => simp [rowMaxIdx] at h
  | cons a as ih =>
    intro x hx
    rw [rowMaxIdx] at h
    split at h
    · rename_i heq
      cases h
      cases as with
      | nil =>
        rcases List.mem_cons.mp hx with rfl | hxs
        · exact le_refl x
        · simp at hxs
      | cons b bs => exact absurd heq (rowMaxIdx_cons_ne_none b bs)
    · rename_i w j heq
      by_cases hwa : w > a
      · rw [if_pos hwa] at h
        cases h
        rcases List.mem_cons.mp hx with rfl | hxs
        · exact le_of_lt hwa
        · exact ih heq x hxs
      · rw [if_neg hwa] at h
        cases h
        rcases List.mem_cons.mp hx with rfl | hxs
        · exact le_refl x
        · exact le_trans (ih heq x hxs) (le_of_not_lt hwa)

theorem rowMaxIdx_get {l : List ℚ} {v : ℚ} {i : Nat}
    (h : rowMaxIdx l = some (v, i)) : l[i]? = some v := by
  induction l generalizing v i with
  | nil => simp [rowMaxIdx] at h
  | cons a as ih =>
    rw [rowMaxIdx] at h
    split at h
    · cases h; simp
    · rename_i w j heq
      by_cases hwa : w > a
      · rw [if_pos hwa] at h
        cases h
        simpa using ih heq
      · rw [if_neg hwa] at h
        cases h
        simp

theorem afterLoad_transform_eq {D W : Type} (st : BaseInference D)
    (env : Env D W) : ∃ tf, (afterLoad st env).transform = some tf := by
  by_cases h : needLoad st = true
  · simp [afterLoad, h, loadedState]
  · have h2 : st.transform.isNone = false := by
      unfold needLoad at h
      simp only [Bool.or_eq_true, not_or] at h
      exact Bool.not_eq_true _ ▸ (by simpa using h.2)
    simp only [afterLoad, h, if_false, Bool.false_eq_true, ite_false]
    cases htr : st.transform with
    | none => rw [htr] at h2; simp at h2
    | some tf => exact ⟨tf, rfl⟩

theorem afterLoad_model_eq {D W : Type} (st : BaseInference D)
    (env : Env D W) : ∃ m, (afterLoad st env).model = some m := by
  by_cases h : needLoad st = true
  · simp [afterLoad, h, loadedState]
  · have h2 : st.model.isNone = false := by
      unfold needLoad at h
      simp only [Bool.or_eq_true, not_or] at h
      exact Bool.not_eq_true _ ▸ (by simpa using h.1)
    simp only [afterLoad, h, if_false, Bool.false_eq_true, ite_false]
    cases hmo : st.model with
    | none => rw [hmo] at h2; simp at h2
    | some m => exact ⟨m, rfl⟩

theorem single_run_state_eq {D W : Type} (st0 : BaseInference D)
    (env : Env D W) (p : Bool) (f i : Option String) :
    (single_run st0 env p f i).state = afterLoad st0 env := by
  unfold single_run
  repeat first
  | rfl
  | split

theorem preprocess_trace_no_load {D W : Type} (st : BaseInference D)
    (env : Env D W) (f i : Option String) :
    Event.load_checkpoint ∉ (preprocess st env f i).2 ∧
    Event.setup_model ∉ (preprocess st env f i).2 := by
  rcases f with _ | p <;> rcases i with _ | s <;>
    simp only [preprocess, finishPre, _load_image] <;>
    (repeat' split) <;> simp

theorem single_run_trace_decomp {D W : Type} (st0 : BaseInference D)
    (env : Env D W) (p : Bool) (f i : Option String) :
    ∃ rest, (single_run st0 env p f i).trace = loadEvents st0 ++ rest ∧
      Event.load_checkpoint ∉ rest ∧ Event.setup_model ∉ rest := by
  have hpre := preprocess_trace_no_load (afterLoad st0 env) env f
    (if p = true then some (env.b64encode_png (env.image_new_RGB (128, 128)))
     else i)
  unfold single_run
  split
  · exact ⟨[], by simp⟩
  · split
    · exact ⟨[], by simp⟩
    · split
      · rename_i e evs heq
        rw [heq] at hpre
        exact ⟨evs, rfl, hpre.1, hpre.2⟩
      · rename_i img evs heq
        rw [heq] at hpre
        have h1 : Event.load_checkpoint ∉ evs := hpre.1
        have h2 : Event.setup_model ∉ evs := hpre.2
        split
        · exact ⟨evs, rfl, h1, h2⟩
        · split
          · exact ⟨evs ++ [Event.forward], by simp,
              by simp [h1], by simp [h2]⟩
          · exact ⟨evs ++ [Event.forward, Event.postprocess_ev], by simp,
              by simp [h1], by simp [h2]⟩

/-! ## Claim theorems -/

/-- C1: for a model output holding one row, `postprocess` applies a softmax
over the class dimension, takes the maximum activation together with its
argmax index, resolves the class name by indexing the stored class list
with that index, and returns a payload whose result pairs that class name
with the maximum activation value. -/
theorem postprocess_softmax_argmax {D W : Type} (st : BaseInference D)
    (env : Env D W) (cs : List String) (row : List ℚ) (v : ℚ) (i : Nat)
    (hc : st.classes = some cs)
    (hmax : rowMaxIdx (softmaxRow env.exp row) = some (v, i))
    (hi : i < cs.length) :
    postprocess st env [row]
      = Except.ok ⟨PayloadValue.classification cs[i] v⟩ ∧
    (softmaxRow env.exp row)[i]? = some v ∧
    ∀ x ∈ softmaxRow env.exp row, x ≤ v := by
  refine ⟨?_, rowMaxIdx_get hmax, rowMaxIdx_le hmax⟩
  simp [postprocess, hc, torchMaxDim1, hmax, List.getElem?_eq_getElem hi]

/-- Concrete run of `postprocess_softmax_argmax`: with exp x = x + 10 the
softmax of [1, 3, 2] is [11/36, 13/36, 12/36], whose maximum 13/36 sits at
index 1, naming class "dog". -/
theorem postprocess_softmax_argmax_witness :
    stW.classes = some ["cat", "dog", "bird"] ∧
    rowMaxIdx (softmaxRow envW.exp [1, 3, 2]) = some (13/36, 1) ∧
    1 < (["cat", "dog", "bird"] : List String).length ∧
    postprocess stW envW [[1, 3, 2]]
      = Except.ok ⟨PayloadValue.classification "dog" (13/36)⟩ := by
  have hmax : rowMaxIdx (softmaxRow envW.exp [1, 3, 2]) = some (13/36, 1) := by
    norm_num [softmaxRow, rowMaxIdx, envW]
  exact ⟨rfl, hmax, by norm_num,
    (postprocess_softmax_argmax stW envW ["cat", "dog", "bird"] [1, 3, 2]
      (13/36) 1 rfl hmax (by norm_num)).1⟩

/-- C4: on the first load, a missing `'test_transform'` checkpoint entry
makes `single_run` fall back to the default `Compose([ToTensor()])`, and a
present entry is installed unchanged. -/
theorem single_run_transform_fallback {D W : Type} (env : Env D W)
    (p : Bool) (f i : Option String) :
    (env.checkpoint.test_transform = none →
      (single_run (BaseInference.init D) env p f i).state.transform
        = some (TransformE.compose [TransformE.toTensor])) ∧
    (∀ t, env.checkpoint.test_transform = some t →
      (single_run (BaseInference.init D) env p f i).state.transform
        = some t) := by
  constructor
  · intro h
    rw [single_run_state_eq]
    simp [afterLoad, needLoad, BaseInference.init, loadedState,
      checkpointTransform, h]
  · intro t h
    rw [single_run_state_eq]
    simp [afterLoad, needLoad, BaseInference.init, loadedState,
      checkpointTransform, h]

/-- Concrete run of `single_run_transform_fallback`: `envW`'s checkpoint
has no `'test_transform'` entry, so the fallback transform is installed. -/
theorem single_run_transform_fallback_witness :
    envW.checkpoint.test_transform = none ∧
    (single_run (BaseInference.init Nat) envW false none none).state.transform
      = some (TransformE.compose [TransformE.toTensor]) :=
  ⟨rfl, (single_run_transform_fallback envW false none none).1 rfl⟩

/-- C5: `_load_image` raises `FileNotFoundError` exactly when no file
exists at the given path, and otherwise returns the image loaded from that
path by `pil_loader`. -/
theorem load_image_file_check {D W : Type} (env : Env D W) (p : String) :
    (_load_image env p
        = Except.error
            (PyError.fileNotFoundError ("Could not find file " ++ p))
      ↔ env.file_exists p = false) ∧
    (env.file_exists p = true →
      _load_image env p = Except.ok (env.pil_loader p)) := by
  cases h : env.file_exists p <;> simp [_load_image, h]

/-- Concrete run of `load_image_file_check`: the path "img.png" exists in
`envW` and loads to the image `1`. -/
theorem load_image_file_check_witness :
    envW.file_exists "img.png" = true ∧
    _load_image envW "img.png" = Except.ok 1 :=
  ⟨rfl, (load_image_file_check envW "img.png").2 rfl⟩

/-- C8: the checkpoint record carries a transform entry, the class list and
the model weights, and the first `single_run` on a fresh object stores the
checkpoint's `'classes'` entry in `self.classes` for later label lookup. -/
theorem single_run_stores_classes {D W : Type} (env : Env D W) (p : Bool)
    (f i : Option String) :
    (single_run (BaseInference.init D) env p f i).state.classes
      = some env.checkpoint.classes := by
  rw [single_run_state_eq]
  simp [afterLoad, needLoad, BaseInference.init, loadedState]

/-- C2: the model, transform and class list are loaded lazily exactly once:
a first `single_run` on a fresh object installs them from `setup_model` and
the checkpoint, and any later `single_run` on a state where both the
`model` and `transform` attributes exist leaves the state unchanged and
performs no checkpoint load (and no model setup). -/
theorem single_run_lazy_once {D W : Type} (env : Env D W) (p : Bool)
    (f i : Option String) :
    ((single_run (BaseInference.init D) env p f i).state = loadedState env) ∧
    (∀ st : BaseInference D, st.model.isSome = true →
      st.transform.isSome = true →
      (single_run st env p f i).state = st ∧
      Event.load_checkpoint ∉ (single_run st env p f i).trace ∧
      Event.setup_model ∉ (single_run st env p f i).trace) := by
  constructor
  · rw [single_run_state_eq]
    simp [afterLoad, needLoad, BaseInference.init]
  · intro st hm ht
    have hnl : needLoad st = false := by
      unfold needLoad
      cases hmo : st.model <;> cases hto : st.transform <;> simp_all
    refine ⟨?_, ?_, ?_⟩
    · rw [single_run_state_eq]
      simp [afterLoad, hnl]
    · obtain ⟨rest, htr, h1, h2⟩ := single_run_trace_decomp st env p f i
      rw [htr]
      simp [loadEvents, hnl, h1]
    · obtain ⟨rest, htr, h1, h2⟩ := single_run_trace_decomp st env p f i
      rw [htr]
      simp [loadEvents, hnl, h2]

/-- Concrete run of `single_run_lazy_once`: a second call on the loaded
state `stW` changes nothing and emits no load events. -/
theorem single_run_lazy_once_witness :
    stW.model.isSome = true ∧ stW.transform.isSome = true ∧
    ((single_run stW envW false none none).state = stW ∧
      Event.load_checkpoint ∉ (single_run stW envW false none none).trace ∧
      Event.setup_model ∉ (single_run stW envW false none none).trace) :=
  ⟨rfl, rfl, (single_run_lazy_once envW false none none).2 stW rfl rfl⟩

/-- C3: with `pre_load` true, `single_run` requires both `input_image` and
`input_folder` to be `None` (else an assertion fails), substitutes the
base64-encoded PNG of an internally generated 128x128 RGB image as the
input, runs the forward pass on it, and returns the fixed payload
`{'result': "successfully loaded the model"}` instead of post-processed
output. -/
theorem single_run_pre_load_spec {D W : Type} (st0 : BaseInference D)
    (env : Env D W) :
    (∀ f i : Option String, f.isSome = true ∨ i.isSome = true →
      (single_run st0 env true f i).out
        = Except.error PyError.assertionError) ∧
    ((single_run st0 env true none none).out
        = Except.ok ⟨PayloadValue.message "successfully loaded the model"⟩ ∧
      Event.decode_image (env.b64encode_png (env.image_new_RGB (128, 128)))
        ∈ (single_run st0 env true none none).trace ∧
      Event.forward ∈ (single_run st0 env true none none).trace) := by
  obtain ⟨tf, htf⟩ := afterLoad_transform_eq st0 env
  obtain ⟨m, hm⟩ := afterLoad_model_eq st0 env
  constructor
  · rintro f i h
    rcases i with _ | s
    · rcases f with _ | q
      · simp at h
      · simp [single_run]
    · simp [single_run]
  · simp [single_run, preprocess, finishPre, htf, hm]

/-- Concrete run of `single_run_pre_load_spec`: a pre-load call with an
input image fails its assertion. -/
theorem single_run_pre_load_spec_witness :
    ((some "p" : Option String).isSome = true ∨
      (none : Option String).isSome = true) ∧
    (single_run stW envW true (some "p") none).out
      = Except.error PyError.assertionError :=
  ⟨Or.inl rfl,
    (single_run_pre_load_spec stW envW).1 (some "p") none (Or.inl rfl)⟩

/-- C9: a non-pre-load `single_run` with neither `input_folder` nor
`input_image` reaches the transform call of `preprocess` with the local
variable `img` never assigned and raises `UnboundLocalError` — the
no-input case is not handled by a guarded, explicit error. -/
theorem single_run_no_input_unbound {D W : Type} (st : BaseInference D)
    (env : Env D W) :
    (single_run st env false none none).out
      = Except.error (PyError.unboundLocalError "img") ∧
    (∀ (st2 : BaseInference D) (tf : TransformE), st2.transform = some tf →
      preprocess st2 env none none
        = (Except.error (PyError.unboundLocalError "img"), [])) := by
  obtain ⟨tf, htf⟩ := afterLoad_transform_eq st env
  constructor
  · simp [single_run, preprocess, htf]
  · intro st2 tf2 h
    simp [preprocess, h]

/-- Concrete run of `single_run_no_input_unbound` on the loaded state. -/
theorem single_run_no_input_unbound_witness :
    stW.transform = some (TransformE.compose [TransformE.toTensor]) ∧
    preprocess stW envW none none
      = (Except.error (PyError.unboundLocalError "img"), []) :=
  ⟨rfl, (single_run_no_input_unbound stW envW).2 stW
    (TransformE.compose [TransformE.toTensor]) rfl⟩

/-- C10: every successful `preprocess` returns a mini-batch whose leading
dimension is exactly 1: the transformed image is unsqueezed at dimension 0,
so the forward pass always receives a batch of one image. -/
theorem preprocess_batch_size_one {D W : Type} (st : BaseInference D)
    (env : Env D W) (f i : Option String) (b : List D) (evs : List Event)
    (h : preprocess st env f i = (Except.ok b, evs)) : b.length = 1 := by
  rcases f with _ | p <;> rcases i with _ | s <;>
    simp only [preprocess, finishPre, _load_image] at h <;>
    repeat' split at h
  all_goals obtain ⟨h1, h2⟩ := h
  all_goals rfl

/-- Concrete run of `preprocess_batch_size_one` on a base64 input. -/
theorem preprocess_batch_size_one_witness :
    preprocess stW envW none (some "img")
      = (Except.ok [3], [Event.decode_image "img", Event.transform_apply,
          Event.move_to_device]) ∧
    ([3] : List Nat).length = 1 :=
  ⟨rfl, preprocess_batch_size_one stW envW none (some "img") [3]
    [Event.decode_image "img", Event.transform_apply, Event.move_to_device]
    rfl⟩

/-- C7: `preprocess` accepts exactly one image source: a path asserts the
base64 image is absent and loads from the file system, a base64 string
asserts the path is absent and is decoded (then converted to RGB), and
supplying both fails an assertion before any image is produced (no load or
decode event is emitted). -/
theorem preprocess_sources {D W : Type} (st : BaseInference D)
    (env : Env D W) (tf : TransformE) (htf : st.transform = some tf) :
    (∀ p s : String, preprocess st env (some p) (some s)
        = (Except.error PyError.assertionError, [])) ∧
    (∀ p : String, env.file_exists p = true →
      preprocess st env (some p) none
        = (Except.ok [env.move_to_device (applyT env tf (env.pil_loader p))],
           [Event.load_image p, Event.transform_apply,
            Event.move_to_device])) ∧
    (∀ s : String, preprocess st env none (some s)
        = (Except.ok [env.move_to_device
              (applyT env tf (env.convert_to_rgb (env.decode_base64 s)))],
           [Event.decode_image s, Event.transform_apply,
            Event.move_to_device])) := by
  refine ⟨fun p s => rfl, ?_, ?_⟩
  · intro p hp
    simp [preprocess, _load_image, hp, finishPre, htf]
  · intro s
    simp [preprocess, finishPre, htf]

/-- Concrete run of `preprocess_sources`: decoding the base64 source under
`envW` (decode gives 2, `ToTensor` adds 1, the device move is identity). -/
theorem preprocess_sources_witness :
    stW.transform = some (TransformE.compose [TransformE.toTensor]) ∧
    preprocess stW envW none (some "abc")
      = (Except.ok [3], [Event.decode_image "abc", Event.transform_apply,
          Event.move_to_device]) :=
  ⟨rfl, (preprocess_sources stW envW
    (TransformE.compose [TransformE.toTensor]) rfl).2.2 "abc"⟩

/-- C6: a non-pre-load `single_run` on one valid input image (either
source) is exactly the pipeline load → preprocess → one forward pass on
the preprocessed image → postprocess of the forward output, with the
events in that order and none skipped. -/
theorem single_run_pipeline {D W : Type} (st0 : BaseInference D)
    (env : Env D W) :
    (∀ s : String, ∃ (m : List D → List (List ℚ)) (img : D),
      (afterLoad st0 env).model = some m ∧
      preprocess (afterLoad st0 env) env none (some s)
        = (Except.ok [img], [Event.decode_image s, Event.transform_apply,
            Event.move_to_device]) ∧
      single_run st0 env false none (some s)
        = ⟨postprocess (afterLoad st0 env) env (m [img]),
           afterLoad st0 env,
           loadEvents st0 ++ [Event.decode_image s, Event.transform_apply,
             Event.move_to_device, Event.forward, Event.postprocess_ev]⟩) ∧
    (∀ p : String, env.file_exists p = true →
      ∃ (m : List D → List (List ℚ)) (img : D),
      (afterLoad st0 env).model = some m ∧
      preprocess (afterLoad st0 env) env (some p) none
        = (Except.ok [img], [Event.load_image p, Event.transform_apply,
            Event.move_to_device]) ∧
      single_run st0 env false (some p) none
        = ⟨postprocess (afterLoad st0 env) env (m [img]),
           afterLoad st0 env,
           loadEvents st0 ++ [Event.load_image p, Event.transform_apply,
             Event.move_to_device, Event.forward, Event.postprocess_ev]⟩) := by
  obtain ⟨tf, htf⟩ := afterLoad_transform_eq st0 env
  obtain ⟨m, hm⟩ := afterLoad_model_eq st0 env
  constructor
  · intro s
    refine ⟨m, env.move_to_device (applyT env tf
      (env.convert_to_rgb (env.decode_base64 s))), hm, ?_, ?_⟩
    · simp [preprocess, finishPre, htf]
    · simp [single_run, preprocess, finishPre, htf, hm]
  · intro p hp
    refine ⟨m, env.move_to_device (applyT env tf (env.pil_loader p)), hm,
      ?_, ?_⟩
    · simp [preprocess, _load_image, hp, finishPre, htf]
    · simp [single_run, preprocess, _load_image, hp, finishPre, htf, hm]

/-- Concrete run of `single_run_pipeline` on the file path that exists
under `envW`. -/
theorem single_run_pipeline_witness :
    envW.file_exists "img.png" = true ∧
    (∃ (m : List Nat → List (List ℚ)) (img : Nat),
      (afterLoad stW envW).model = some m ∧
      preprocess (afterLoad stW envW) envW (some "img.png") none
        = (Except.ok [img], [Event.load_image "img.png",
            Event.transform_apply, Event.move_to_device]) ∧
      single_run stW envW false (some "img.png") none
        = ⟨postprocess (afterLoad stW envW) envW (m [img]),
           afterLoad stW envW,
           loadEvents stW ++ [Event.load_image "img.png",
             Event.transform_apply, Event.move_to_device, Event.forward,
             Event.postprocess_ev]⟩) :=
  ⟨rfl, (single_run_pipeline stW envW).2 "img.png" rfl⟩
